import Mathlib

/-!
# Verification of the aquarium-persistor-azure core

Shallow embedding of the pull-orchestration / batched-durable-store engine of
the persistor:

* `save_to_storage`, `generate_file_name` (storage_utils/utils_storage.py)
* `form_store` and the message formatters (storage_utils/utils_storage.py)
* `generate_append_blob` (storage_utils/append_control.py)
* `ServiceManagerBase.__init__` flag logic (service_modules/services_manager_base.py)
* `ServiceHTTPTriggerManager.time_constrained_pull` (service_modules/services_http_workers.py)
* the Event Hub pull callback `on_events` / `store_batch`
  (service_modules/services_eventhub_pull.py)
* the Service Bus `pull_loop` / `store_batch` and its cancellation handler
  (service_modules/services_servicebus_pull.py)

External collaborators (blob-store client, message sources, wall clock, uuid
generator) are modelled as explicit parameters: a store client is a function
from the index of the write attempt (or of the writer call) to a success
boolean, the clock is a `DateTime` argument, the uuid a `String` argument.
Python truthiness of optional values is modelled explicitly.
-/

namespace Persistor

/-- Wall-clock timestamp as used by the source (`datetime.datetime.now()`):
only the fields the code reads. -/
structure DateTime where
  year : Nat
  month : Nat
  day : Nat
  hour : Nat
  minute : Nat
  deriving Repr, DecidableEq

/-- Python truthiness of an optional string (`None` and `""` are falsy). -/
def pyTruthyOptStr : Option String → Bool
  | none => false
  | some s => !s.isEmpty

/-- Python truthiness of an optional string-to-string mapping
(`None` and `{}` are falsy). -/
def pyTruthyDict : Option (List (String × String)) → Bool
  | none => false
  | some l => !l.isEmpty

/-! ## Record formatter (utils_storage.py) -/

/-- A normalized record: the `DATA` payload plus the optional `METADATA`
mapping, as built by `form_store`. `metadata = none` means the stored
dictionary has no `METADATA` field. -/
structure StoreRecord where
  payload : String
  metadata : Option (List (String × String))
  deriving Repr, DecidableEq

/-- `form_store` (utils_storage.py lines 158-175):
`data = {"DATA": payload}; if metadata: data["METADATA"] = metadata`. -/
def form_store (payload : String) (metadata : Option (List (String × String))) :
    StoreRecord :=
  if pyTruthyDict metadata then { payload := payload, metadata := metadata }
  else { payload := payload, metadata := none }

/-- A Service Bus message as seen by the formatter: `body` is the result of
decoding the payload as UTF-8 text (`none` when `payload.decode("utf-8")`
raises `UnicodeDecodeError`), `props` the already-decoded custom
properties. -/
structure SBMsg where
  body : Option String
  props : Option (List (String × String))
  deriving Repr, DecidableEq

/-- `form_data_af_service_bus_pull` (utils_storage.py lines 124-155): decode
the payload (an undecodable payload raises, modelled as `none`), then build
the record from payload and (if requested) the user properties. -/
def form_data_af_service_bus_pull (msg : SBMsg) (get_metadata : Bool) :
    Option StoreRecord :=
  match msg.body with
  | none => none
  | some payload =>
      some (form_store payload (if get_metadata then msg.props else none))

/-- `form_data_af_event_hub_pull` (utils_storage.py lines 98-121) with the
payload decoding and byte-pair decoding of properties already applied:
`metadata = event.properties if get_metadata else None`, then `form_store`. -/
def form_data_af_event_hub_pull (body : String)
    (props : Option (List (String × String))) (get_metadata : Bool) :
    StoreRecord :=
  form_store body (if get_metadata then props else none)

/-! ## Destination namer and durable store writer (utils_storage.py) -/

/-- `STORE_RETRY_POLICY_MAX` (utils_storage.py line 38). -/
def STORE_RETRY_POLICY_MAX : Nat := 3

/-- `STORE_RETRY_BACKOFF_TIME` (utils_storage.py line 39), `0.5` seconds. -/
def STORE_RETRY_BACKOFF_TIME : ℚ := 1 / 2

/-- `generate_file_name` (utils_storage.py lines 178-203). The uuid and the
current wall-clock date are explicit inputs; `blob_name` falsy (absent or
empty) selects the uuid. -/
def generate_file_name (store_param : String) (blob_name : Option String)
    (uuid : String) (now : DateTime) : String :=
  let name := if pyTruthyOptStr blob_name then blob_name.getD "" else uuid
  store_param ++ "/" ++ toString now.year ++ "/" ++ toString now.month ++ "/"
    ++ toString now.day ++ "/" ++ name ++ ".txt"

/-- Outcome of one `save_to_storage` call: either the
`StorageTypeConfigurationException` raised before the retry loop, or the
returned `(file_name, result)` pair. -/
inductive SaveResult where
  | configError
  | done (fileName : String) (success : Bool)
  deriving Repr, DecidableEq

/-- Observables of one `save_to_storage` call: its result, how many write
attempts were performed against the store client, and the backoff sleeps
executed between attempts. -/
structure SaveOutcome where
  result : SaveResult
  attempts : Nat
  sleeps : List ℚ
  deriving Repr, DecidableEq

/-- The retry loop of `save_to_storage` (utils_storage.py lines 266-306).
`attemptOk i` is the outcome of the `i`-th write attempt against the store
client (the whole `try` block). Returns (number of attempts performed,
sleeps executed, success flag). On a failed attempt that is not the last
(`i == STORE_RETRY_POLICY_MAX - 1` is false) the loop sleeps
`STORE_RETRY_BACKOFF_TIME` and retries. -/
def storeRetryLoop (attemptOk : Nat → Bool) : Nat → Nat → Nat × List ℚ × Bool
  | _, 0 => (0, [], false)
  | i, r + 1 =>
      if attemptOk i then (1, [], true)
      else if r = 0 then (1, [], false)
      else
        let rest := storeRetryLoop attemptOk (i + 1) r
        (rest.1 + 1, STORE_RETRY_BACKOFF_TIME :: rest.2.1, rest.2.2)

/-- `save_to_storage` (utils_storage.py lines 223-308). `data` is the batch
(only its presence matters here), `attemptOk` the store client's behaviour,
`uuid`/`now` the external inputs of `generate_file_name`. Mirrors:
if not append, generate a fresh name; if the name is falsy, require a truthy
`file_append_name` or raise `StorageTypeConfigurationException`; then run the
retry loop and return `(file_name, result)`. -/
def save_to_storage (attemptOk : Nat → Bool) (data : List String)
    (store_param : String) (append : Bool) (file_append_name : Option String)
    (uuid : String) (now : DateTime) : SaveOutcome :=
  let file_name : Option String :=
    if !append then some (generate_file_name store_param none uuid now)
    else none
  if !pyTruthyOptStr file_name then
    if !pyTruthyOptStr file_append_name then
      { result := .configError, attempts := 0, sleeps := [] }
    else
      let r := storeRetryLoop attemptOk 0 STORE_RETRY_POLICY_MAX
      { result := .done (file_append_name.getD "") r.2.2, attempts := r.1,
        sleeps := r.2.1 }
  else
    let r := storeRetryLoop attemptOk 0 STORE_RETRY_POLICY_MAX
    { result := .done (file_name.getD "") r.2.2, attempts := r.1,
      sleeps := r.2.1 }

/-! ## Append-path resolver (append_control.py) -/

/-- The rotation-check condition of `generate_append_blob`
(append_control.py line 63):
`not time_based or not manager.now or now.hour > manager.now.hour or
now.minute > manager.now.minute`. -/
def rotation_should_check (time_based : Bool) (manager_now : Option DateTime)
    (now : DateTime) : Bool :=
  if !time_based then true
  else
    match manager_now with
    | none => true
    | some prev => decide (prev.hour < now.hour) || decide (prev.minute < now.minute)

/-- Modelled from the spec: the condition claimed for the locate/create step —
`timeBased` is false, or no rotation has been recorded yet, or the current
wall-clock minute differs from the last rotation's recorded minute (the hour
also being checked, for rollover). Used only to compare against
`rotation_should_check`, which is the condition the code actually tests. -/
def rotation_claimed_condition (time_based : Bool) (manager_now : Option DateTime)
    (now : DateTime) : Bool :=
  if !time_based then true
  else
    match manager_now with
    | none => true
    | some prev => decide (now.minute ≠ prev.minute) || decide (now.hour ≠ prev.hour)

/-- Observables of one `generate_append_blob` call: the returned path, whether
the locate/create-if-absent step ran, and the manager state after the call. -/
structure AppendBlobOutcome where
  fileName : String
  checkedStorage : Bool
  newManagerNow : Option DateTime
  newManagerFile : Option String
  deriving Repr, DecidableEq

/-- `generate_append_blob` (append_control.py lines 29-85). The blob-store
interaction inside the guarded block (get properties, best-effort create) has
no effect on the returned value; `checkedStorage` records whether it ran.
`manager_now`/`manager_file` are the manager's `now` and `file_name` fields on
entry. -/
def generate_append_blob (time_based : Bool) (manager_now : Option DateTime)
    (manager_file : Option String) (store_param : String) (uuid : String)
    (now : DateTime) : AppendBlobOutcome :=
  let name :=
    if time_based then toString now.hour ++ "-" ++ toString now.minute
    else uuid
  let file_name := generate_file_name store_param (some name) uuid now
  if rotation_should_check time_based manager_now now then
    { fileName := file_name, checkedStorage := true,
      newManagerNow := some now, newManagerFile := some file_name }
  else
    { fileName := file_name, checkedStorage := false,
      newManagerNow := manager_now, newManagerFile := manager_file }

/-! ## Manager construction flags (services_manager_base.py) -/

/-- The configuration keys read by `ServiceManagerBase.__init__` for the
append flags; `none` models an absent key (`config.get(key, False)`). -/
structure ManagerConfig where
  get_metadata : Option Bool
  append : Option Bool
  timed_append : Option Bool
  deriving Repr, DecidableEq

/-- The flag fields of a constructed manager. -/
structure ManagerFlags where
  get_metadata : Bool
  append : Bool
  timed_append : Bool
  deriving Repr, DecidableEq

/-- Flag logic of `ServiceManagerBase.__init__`
(services_manager_base.py lines 51-57): read the three flags with default
`False`, then `if self.timed_append: self.append = True`. -/
def serviceManagerBaseInit (config : ManagerConfig) : ManagerFlags :=
  let get_metadata := config.get_metadata.getD false
  let append := config.append.getD false
  let timed_append := config.timed_append.getD false
  let append := if timed_append then true else append
  { get_metadata := get_metadata, append := append, timed_append := timed_append }

/-! ## Orchestration trace (services_http_workers.py, time_constrained_pull) -/

/-- Abstract actions performed by `time_constrained_pull`, in program order. -/
inductive PullAction where
  | enterClientContext
  | startReceiveTask
  | sleepFor (duration : ℚ)
  | cancelTask
  | closeClient
  | awaitTask
  deriving Repr, DecidableEq

/-- Python truthiness of the optional receive duration (`None` and `0` are
falsy). -/
def pyTruthyDuration : Option ℚ → Bool
  | none => false
  | some d => decide (d ≠ 0)

/-- `time_constrained_pull` (services_http_workers.py lines 156-194) as the
sequence of actions it performs. With a truthy `receive_duration`: enter the
client context, start the receive task, sleep for the duration, cancel the
task, and close the client on leaving the `async with` block. Otherwise:
start the receive task and await it. -/
def time_constrained_pull (receive_duration : Option ℚ) : List PullAction :=
  if pyTruthyDuration receive_duration then
    [PullAction.enterClientContext, PullAction.startReceiveTask,
     PullAction.sleepFor (receive_duration.getD 0), PullAction.cancelTask,
     PullAction.closeClient]
  else
    [PullAction.startReceiveTask, PullAction.awaitTask]

/-! ## Event Hub pull task (services_eventhub_pull.py)

Events are abstracted as an arbitrary type `α` (payload extraction by
`self.get_data` is the identity here; its possible decode failure is
modelled, where it matters, in the Service Bus embedding below). The durable
writer `self.process_func` is abstracted by `storeOk : Nat → Bool`, the
success flag returned by the `i`-th writer call (`save_to_storage` returns
`(file_name, result)` and `store_batch` raises `PersistorStoreException`
when `result` is false). -/

/-- The state threaded through the Event Hub callback: the in-memory batch
`data`, the local `last_event` and `event_num` of one `on_events` invocation,
the index of the next writer call, the shared `processed_messages[0]`
counter, the partition checkpoint (last event passed to
`update_checkpoint`), and the list of batches handed to the writer. -/
structure EHSt (α : Type) where
  data : List α
  lastEvent : Option α
  eventNum : Nat
  storeIdx : Nat
  processed : Nat
  checkpoint : Option α
  stores : List (List α)
  deriving Repr, DecidableEq

/-- The initial state of a fresh Event Hub pull task. -/
def ehInit {α : Type} : EHSt α :=
  { data := [], lastEvent := none, eventNum := 0, storeIdx := 0,
    processed := 0, checkpoint := none, stores := [] }

/-- `PersistorEventHubPullManager.store_batch`
(services_eventhub_pull.py lines 97-123): call the writer; if the result is
false raise `PersistorStoreException` (error state: checkpoint, processed and
data untouched); otherwise add `len(data)` to the processed counter, clear
the batch and update the checkpoint to the last event. -/
def ehStoreBatch (storeOk : Nat → Bool) (s : EHSt α) (lastEvent : α) :
    Except (EHSt α) (EHSt α) :=
  if storeOk s.storeIdx then
    .ok { s with
          data := [],
          storeIdx := s.storeIdx + 1,
          processed := s.processed + s.data.length,
          checkpoint := some lastEvent,
          stores := s.stores ++ [s.data] }
  else
    .error { s with storeIdx := s.storeIdx + 1, stores := s.stores ++ [s.data] }

/-- The `for event in events` loop of `on_events`
(services_eventhub_pull.py lines 157-171): append the event, count it, and
flush through `store_batch` whenever `event_num % batch_size_to_store == 0`. -/
def ehLoop (B : Nat) (storeOk : Nat → Bool) :
    List α → EHSt α → Except (EHSt α) (EHSt α)
  | [], s => .ok s
  | ev :: rest, s =>
      let s1 : EHSt α :=
        { s with data := s.data ++ [ev], lastEvent := some ev,
                 eventNum := s.eventNum + 1 }
      if s1.eventNum % B = 0 then
        match ehStoreBatch storeOk s1 ev with
        | .ok s2 => ehLoop B storeOk rest s2
        | .error s2 => .error s2
      else ehLoop B storeOk rest s1

/-- One invocation of the `on_events` callback
(services_eventhub_pull.py lines 136-180): reset the per-invocation locals,
return immediately on an empty batch, run the loop, then store the non-empty
leftovers with the recorded `last_event`. -/
def eh_on_events (B : Nat) (storeOk : Nat → Bool) (events : List α)
    (s : EHSt α) : Except (EHSt α) (EHSt α) :=
  let s0 : EHSt α := { s with data := [], lastEvent := none, eventNum := 0 }
  if events.isEmpty then .ok s0
  else
    match ehLoop B storeOk events s0 with
    | .error s1 => .error s1
    | .ok s1 =>
        if s1.data.isEmpty then .ok s1
        else
          match s1.lastEvent with
          | some le => ehStoreBatch storeOk s1 le
          | none => .ok s1

/-- A whole Event Hub pull-task run: the SDK delivers the received events to
`on_events` in successive callback invocations (`deliveries`); the persistent
state (writer index, processed counter, checkpoint, stored batches) is
threaded through. -/
def eh_task_run (B : Nat) (storeOk : Nat → Bool) :
    List (List α) → EHSt α → Except (EHSt α) (EHSt α)
  | [], s => .ok s
  | d :: ds, s =>
      match eh_on_events B storeOk d s with
      | .ok s1 => eh_task_run B storeOk ds s1
      | .error s1 => .error s1

/-! ## Service Bus pull task (services_servicebus_pull.py) -/

/-- The exceptions that can reach the generic `except Exception` handler of
`pull_loop`: a `UnicodeDecodeError` from payload extraction, or the
`PersistorStoreException` raised by `store_batch` on a failed write. -/
inductive SBErr where
  | decodeError
  | storeException
  deriving Repr, DecidableEq

/-- How a `pull_loop` run terminated: normally, or through the generic
receiver-error handler (which logs the exception and returns quietly). -/
inductive SBExitKind where
  | normal
  | caughtError (e : SBErr)
  deriving Repr, DecidableEq

/-- State threaded through `pull_loop`: the in-memory `data` batch of
messages, the running `msg_num`, the index of the next writer call, the
shared processed counter, and the batches handed to the writer. -/
structure SBSt where
  data : List SBMsg
  msgNum : Nat
  storeIdx : Nat
  processed : Nat
  stores : List (List SBMsg)
  deriving Repr, DecidableEq

/-- The initial `pull_loop` state (`data = []`, `msg_num = 0`). -/
def sbInit : SBSt :=
  { data := [], msgNum := 0, storeIdx := 0, processed := 0, stores := [] }

/-- Observables of a completed `pull_loop` run. -/
structure SBResult where
  stores : List (List SBMsg)
  processed : Nat
  exitKind : SBExitKind
  deriving Repr, DecidableEq

/-- `PersistorServiceBusPullManager.store_batch`
(services_servicebus_pull.py lines 94-127): extract the payloads
(`[self.get_data(m) for m in messages]`, raising `UnicodeDecodeError` if any
payload is undecodable), call the writer, raise `PersistorStoreException` if
the result is false, then pop and `complete()` each message, incrementing the
processed counter for each successful acknowledgement (`completeOk`). -/
def sbStoreBatch (gm : Bool) (storeOk : Nat → Bool) (completeOk : SBMsg → Bool)
    (s : SBSt) : Except (SBErr × SBSt) SBSt :=
  let extracted := s.data.map (fun m => form_data_af_service_bus_pull m gm)
  if extracted.any Option.isNone then .error (.decodeError, s)
  else if storeOk s.storeIdx then
    .ok { s with
          data := [],
          storeIdx := s.storeIdx + 1,
          stores := s.stores ++ [s.data],
          processed := s.processed + (s.data.filter (fun m => completeOk m)).length }
  else .error (.storeException, { s with storeIdx := s.storeIdx + 1 })

/-- The inner `while len(batch) != 0` loop of `pull_loop`
(services_servicebus_pull.py lines 158-165): pop each fetched message in
order, count it, append it to `data`, and flush through `store_batch`
whenever `msg_num % batch_size_to_store == 0`. -/
def sbProcessMsgs (B : Nat) (gm : Bool) (storeOk : Nat → Bool)
    (completeOk : SBMsg → Bool) :
    List SBMsg → SBSt → Except (SBErr × SBSt) SBSt
  | [], s => .ok s
  | m :: rest, s =>
      let s1 : SBSt := { s with msgNum := s.msgNum + 1, data := s.data ++ [m] }
      if s1.msgNum % B = 0 then
        match sbStoreBatch gm storeOk completeOk s1 with
        | .ok s2 => sbProcessMsgs B gm storeOk completeOk rest s2
        | .error e => .error e
      else sbProcessMsgs B gm storeOk completeOk rest s1

/-- The outer `while True` fetch loop of `pull_loop`
(services_servicebus_pull.py lines 148-165): each entry of `fetches` is one
`fetch_next` result; an empty fetch (or an exhausted source) breaks the
loop. -/
def sbFetchLoop (B : Nat) (gm : Bool) (storeOk : Nat → Bool)
    (completeOk : SBMsg → Bool) :
    List (List SBMsg) → SBSt → Except (SBErr × SBSt) SBSt
  | [], s => .ok s
  | f :: fs, s =>
      if f.isEmpty then .ok s
      else
        match sbProcessMsgs B gm storeOk completeOk f s with
        | .ok s1 => sbFetchLoop B gm storeOk completeOk fs s1
        | .error e => .error e

/-- `pull_loop` without cancellation
(services_servicebus_pull.py lines 129-183): run the fetch loop, store the
non-empty leftovers, and route any exception to the generic handler (which
logs it and ends the task quietly). -/
def sb_pull_loop (B : Nat) (gm : Bool) (storeOk : Nat → Bool)
    (completeOk : SBMsg → Bool) (fetches : List (List SBMsg)) : SBResult :=
  match sbFetchLoop B gm storeOk completeOk fetches sbInit with
  | .error (e, s) =>
      { stores := s.stores, processed := s.processed, exitKind := .caughtError e }
  | .ok s =>
      if s.data.isEmpty then
        { stores := s.stores, processed := s.processed, exitKind := .normal }
      else
        match sbStoreBatch gm storeOk completeOk s with
        | .ok s1 =>
            { stores := s1.stores, processed := s1.processed, exitKind := .normal }
        | .error (e, s1) =>
            { stores := s1.stores, processed := s1.processed,
              exitKind := .caughtError e }

/-- Observables of the `except asyncio.CancelledError` handler. `raisedError`
is the exception propagating out of the handler itself (a failed remainder
flush), in which case the abandon loop is skipped. -/
structure CancelOutcome where
  stores : List (List SBMsg)
  processed : Nat
  abandoned : List SBMsg
  raisedError : Option SBErr
  deriving Repr, DecidableEq

/-- The cancellation handler of `pull_loop`
(services_servicebus_pull.py lines 170-175): on `asyncio.CancelledError`,
flush the non-empty `data` remainder through `store_batch`, then abandon
every message of the last fetched-but-unprocessed `batch`. An exception from
the remainder flush propagates before the abandon loop runs. -/
def sb_cancel_cleanup (gm : Bool) (storeOk : Nat → Bool)
    (completeOk : SBMsg → Bool) (s : SBSt) (fetched : List SBMsg) :
    CancelOutcome :=
  if s.data.isEmpty then
    { stores := s.stores, processed := s.processed, abandoned := fetched,
      raisedError := none }
  else
    match sbStoreBatch gm storeOk completeOk s with
    | .ok s1 =>
        { stores := s1.stores, processed := s1.processed, abandoned := fetched,
          raisedError := none }
    | .error (e, s1) =>
        { stores := s1.stores, processed := s1.processed, abandoned := [],
          raisedError := some e }

/-- Concrete decodable Service Bus messages used in concrete instances. -/
def wmA : SBMsg := { body := some "a", props := none }

/-- Second concrete decodable message. -/
def wmB : SBMsg := { body := some "b", props := none }

/-- Third concrete decodable message. -/
def wmC : SBMsg := { body := some "c", props := none }

/-- A concrete message whose payload is not decodable as UTF-8 text. -/
def wmBad : SBMsg := { body := none, props := none }

/-- Last element of `xs` if it has one, else `prev`: how an optional
"last seen" value evolves when a list of new values is consumed. -/
def lastUpd (prev : Option α) (xs : List α) : Option α :=
  xs.getLast?.or prev

/-! # Helper lemmas -/

theorem storeRetryLoop_three_fail (attemptOk : Nat → Bool)
    (h : ∀ j, attemptOk j = false) (i : Nat) :
    storeRetryLoop attemptOk i 3 =
      (3, [STORE_RETRY_BACKOFF_TIME, STORE_RETRY_BACKOFF_TIME], false) := by
  show storeRetryLoop attemptOk i (0 + 1 + 1 + 1) = _
  simp [storeRetryLoop, h]

theorem generate_file_name_isEmpty_false (sp : String) (bn : Option String)
    (uuid : String) (now : DateTime) :
    (generate_file_name sp bn uuid now).isEmpty = false := by
  have hlen : (generate_file_name sp bn uuid now).length ≠ 0 := by
    have h4 : (".txt" : String).length = 4 := rfl
    simp only [generate_file_name, String.length_append]
    omega
  cases hemp : (generate_file_name sp bn uuid now).isEmpty
  · rfl
  · exfalso
    have hempty := (String.isEmpty_iff _).mp hemp
    rw [hempty] at hlen
    exact hlen rfl

theorem lastUpd_nil (prev : Option α) : lastUpd prev [] = prev := rfl

theorem lastUpd_none (xs : List α) : lastUpd none xs = xs.getLast? := by
  simp [lastUpd]

theorem lastUpd_cons (prev : Option α) (x : α) (xs : List α) :
    lastUpd prev (x :: xs) = lastUpd (some x) xs := by
  cases xs with
  | nil => simp [lastUpd]
  | cons y t =>
      rcases h : (y :: t).getLast? with _ | z
      · simp at h
      · simp [lastUpd, List.getLast?_cons_cons, h]

theorem lastUpd_append (prev : Option α) (xs ys : List α) :
    lastUpd prev (xs ++ ys) = lastUpd (lastUpd prev xs) ys := by
  simp [lastUpd, List.getLast?_append, Option.or_assoc]

theorem lastUpd_of_getLast? (prev : Option α) (xs : List α) (x : α)
    (h : xs.getLast? = some x) : lastUpd prev xs = some x := by
  simp [lastUpd, h]

theorem mod_succ_of_lt (a B : Nat) (h : a % B + 1 < B) :
    (a + 1) % B = a % B + 1 := by
  rw [Nat.add_mod, Nat.mod_eq_of_lt (show 1 < B by omega)]
  exact Nat.mod_eq_of_lt h

theorem mod_succ_ne_zero (a B : Nat) (h : a % B + 1 < B) :
    ¬((a + 1) % B = 0) := by
  rw [mod_succ_of_lt a B h]
  omega

theorem form_data_sb_isNone (m : SBMsg) (gm : Bool) :
    (form_data_af_service_bus_pull m gm).isNone = m.body.isNone := by
  rcases hb : m.body with _ | p <;> simp [form_data_af_service_bus_pull, hb]

theorem generate_append_blob_checkedStorage (tb : Bool) (mnow : Option DateTime)
    (mfile : Option String) (sp uuid : String) (now : DateTime) :
    (generate_append_blob tb mnow mfile sp uuid now).checkedStorage =
      rotation_should_check tb mnow now := by
  cases hc : rotation_should_check tb mnow now <;>
    simp [generate_append_blob, hc]

theorem ehLoop_no_flush (B : Nat) (storeOk : Nat → Bool) (xs : List α) :
    ∀ (rest : List α) (s : EHSt α), s.eventNum % B + xs.length < B →
    ehLoop B storeOk (xs ++ rest) s = ehLoop B storeOk rest
      { s with data := s.data ++ xs, eventNum := s.eventNum + xs.length,
               lastEvent := lastUpd s.lastEvent xs } := by
  induction xs with
  | nil =>
      intro rest s hlt
      simp [lastUpd]
  | cons x xs ih =>
      intro rest s hlt
      have h1 : s.eventNum % B + 1 < B := by
        simp only [List.length_cons] at hlt
        omega
      have hmod : (s.eventNum + 1) % B = s.eventNum % B + 1 :=
        mod_succ_of_lt s.eventNum B h1
      simp only [List.cons_append, ehLoop]
      rw [if_neg (mod_succ_ne_zero s.eventNum B h1)]
      have hrec := ih rest
        { s with data := s.data ++ [x], lastEvent := some x,
                 eventNum := s.eventNum + 1 }
        (by show (s.eventNum + 1) % B + xs.length < B
            rw [hmod]
            simp only [List.length_cons] at hlt
            omega)
      rw [show xs.append rest = xs ++ rest from rfl, hrec]
      congr 1
      simp [lastUpd_cons, Nat.add_assoc, Nat.add_comm 1 xs.length]

theorem ehLoop_full_batch (B : Nat) (storeOk : Nat → Bool) (chunk rest : List α)
    (s : EHSt α) (hB : 1 ≤ B) (hlen : chunk.length = B) (hdata : s.data = [])
    (hnum : s.eventNum % B = 0) (x : α) (hx : chunk.getLast? = some x) :
    ehLoop B storeOk (chunk ++ rest) s =
      if storeOk s.storeIdx then
        ehLoop B storeOk rest
          { data := [], lastEvent := some x, eventNum := s.eventNum + B,
            storeIdx := s.storeIdx + 1, processed := s.processed + B,
            checkpoint := some x, stores := s.stores ++ [chunk] }
      else
        .error { data := chunk, lastEvent := some x, eventNum := s.eventNum + B,
                 storeIdx := s.storeIdx + 1, processed := s.processed,
                 checkpoint := s.checkpoint, stores := s.stores ++ [chunk] } := by
  have hne : chunk ≠ [] := by
    intro hnil
    rw [hnil] at hlen
    simp at hlen
    omega
  have hx' : chunk.getLast hne = x := by
    rw [List.getLast?_eq_getLast chunk hne] at hx
    exact Option.some.inj hx
  have hchunk : chunk.dropLast ++ [x] = chunk := by
    have h1 := List.dropLast_append_getLast hne
    rw [hx'] at h1
    exact h1
  have hdl : chunk.dropLast.length = B - 1 := by
    rw [List.length_dropLast, hlen]
  conv_lhs => rw [← hchunk, List.append_assoc]
  rw [ehLoop_no_flush B storeOk chunk.dropLast ([x] ++ rest) s
    (by rw [hnum, hdl]; omega)]
  simp only [List.singleton_append, ehLoop, ehStoreBatch]
  have heN : s.eventNum + chunk.dropLast.length + 1 = s.eventNum + B := by
    rw [hdl]; omega
  rw [heN, if_pos (by rw [Nat.add_mod_right]; exact hnum)]
  have hs1data : (s.data ++ chunk.dropLast) ++ [x] = chunk := by
    rw [hdata]
    simpa using hchunk
  cases hso : storeOk s.storeIdx with
  | true =>
      simp only [if_true]
      rw [hs1data]
      congr 1
      simp [hchunk, hlen]
  | false =>
      simp only [Bool.false_eq_true, if_false]
      rw [hs1data]

theorem isEmpty_false_of_ne_nil (l : List α) (h : l ≠ []) :
    l.isEmpty = false := by
  cases l with
  | nil => exact absurd rfl h
  | cons a t => rfl

theorem getLast?_isSome_of_length_pos (l : List α) (h : 0 < l.length) :
    ∃ x, l.getLast? = some x := by
  have hne : l ≠ [] := by
    intro hnil
    rw [hnil] at h
    simp at h
  exact ⟨l.getLast hne, List.getLast?_eq_getLast l hne⟩

theorem ehLoop_fail_at (B : Nat) (hB : 1 ≤ B) :
    ∀ (f c : Nat) (events : List α) (s : EHSt α),
    s.data = [] → s.eventNum % B = 0 → c = s.storeIdx + f →
    (f + 1) * B ≤ events.length →
    ∃ s', ehLoop B (fun i => decide (i < c)) events s = .error s' ∧
      s'.checkpoint = lastUpd s.checkpoint (events.take (f * B)) ∧
      s'.processed = s.processed + f * B := by
  intro f
  induction f with
  | zero =>
      intro c events s hdata hnum hc hlen
      have hBle : B ≤ events.length := by simpa using hlen
      have hlenc : (events.take B).length = B := by
        rw [List.length_take]
        omega
      obtain ⟨x, hx⟩ := getLast?_isSome_of_length_pos (events.take B)
        (by omega)
      simp only [Nat.zero_mul, List.take_zero, lastUpd_nil, Nat.add_zero]
      rw [show events = events.take B ++ events.drop B from
        (List.take_append_drop B events).symm]
      rw [ehLoop_full_batch B _ (events.take B) (events.drop B) s hB hlenc
        hdata hnum x hx]
      rw [if_neg (by subst hc; simp)]
      exact ⟨_, rfl, rfl, rfl⟩
  | succ f ih =>
      intro c events s hdata hnum hc hlen
      have hBle : B ≤ events.length := by
        refine le_trans ?_ hlen
        have h0 : 0 < f + 1 + 1 := by omega
        calc B = 1 * B := (Nat.one_mul B).symm
        _ ≤ (f + 1 + 1) * B := Nat.mul_le_mul_right B (by omega)
      have hlenc : (events.take B).length = B := by
        rw [List.length_take]
        omega
      obtain ⟨x, hx⟩ := getLast?_isSome_of_length_pos (events.take B)
        (by omega)
      rw [show events = events.take B ++ events.drop B from
        (List.take_append_drop B events).symm]
      have htake : (events.take B ++ events.drop B).take ((f + 1) * B) =
          events.take B ++ (events.drop B).take (f * B) := by
        rw [show (f + 1) * B = (events.take B).length + f * B from by
          rw [hlenc]; ring]
        exact List.take_append (f * B)
      rw [ehLoop_full_batch B _ (events.take B) (events.drop B) s hB hlenc
        hdata hnum x hx]
      rw [if_pos (by subst hc; simp)]
      have hdroplen : (f + 1) * B ≤ (events.drop B).length := by
        rw [List.length_drop]
        have h2 := hlen
        rw [show (f + 1 + 1) * B = (f + 1) * B + B from by ring] at h2
        omega
      obtain ⟨s', hs', hcp, hpr⟩ := ih c (events.drop B)
        { data := [], lastEvent := some x, eventNum := s.eventNum + B,
          storeIdx := s.storeIdx + 1, processed := s.processed + B,
          checkpoint := some x, stores := s.stores ++ [events.take B] }
        rfl (by show (s.eventNum + B) % B = 0; rw [Nat.add_mod_right]; exact hnum)
        (by show c = s.storeIdx + 1 + f; omega) hdroplen
      refine ⟨s', hs', ?_, ?_⟩
      · rw [hcp, htake, lastUpd_append,
          lastUpd_of_getLast? s.checkpoint (events.take B) x hx]
      · rw [hpr]
        show s.processed + B + f * B = s.processed + (f + 1) * B
        ring

theorem ceil_div_eq (M B : Nat) (hB : 1 ≤ B) :
    (M + B - 1) / B = M / B + (if M % B = 0 then 0 else 1) := by
  have hdm := Nat.div_add_mod M B
  have hrlt : M % B < B := Nat.mod_lt M (by omega)
  by_cases hr : M % B = 0
  · rw [if_pos hr, Nat.add_zero]
    rw [show M + B - 1 = (B - 1) + B * (M / B) from by omega]
    rw [Nat.add_mul_div_left (B - 1) (M / B) (show 0 < B by omega)]
    rw [Nat.div_eq_of_lt (show B - 1 < B by omega)]
    omega
  · rw [if_neg hr]
    rw [show M + B - 1 = (M % B - 1) + B * (M / B + 1) from by
      have hm1 : B * (M / B + 1) = B * (M / B) + B := by ring
      omega]
    rw [Nat.add_mul_div_left (M % B - 1) (M / B + 1) (show 0 < B by omega)]
    rw [Nat.div_eq_of_lt (show M % B - 1 < B by omega)]
    omega

theorem mod_succ_cases (a B : Nat) (hB : 1 ≤ B) :
    (a + 1) % B = a % B + 1 ∨ (a % B + 1 = B ∧ (a + 1) % B = 0) := by
  rcases Nat.lt_or_ge (a % B + 1) B with h | h
  · exact Or.inl (mod_succ_of_lt a B h)
  · right
    have hlt : a % B < B := Nat.mod_lt a (by omega)
    have heq : a % B + 1 = B := by omega
    refine ⟨heq, ?_⟩
    have hsplit : (a + 1) % B = (a % B + 1) % B := by
      rcases Nat.lt_or_ge 1 B with h2 | h1
      · rw [Nat.add_mod, Nat.mod_eq_of_lt h2]
      · have hB1 : B = 1 := by omega
        subst hB1
        simp [Nat.mod_one]
    rw [hsplit, heq, Nat.mod_self]

theorem ehStoreBatch_ok (storeOk : Nat → Bool) (s : EHSt α) (le : α)
    (hok : storeOk s.storeIdx = true) :
    ehStoreBatch storeOk s le =
      .ok { s with
            data := [],
            storeIdx := s.storeIdx + 1,
            processed := s.processed + s.data.length,
            checkpoint := some le,
            stores := s.stores ++ [s.data] } := by
  simp [ehStoreBatch, hok]

theorem ehLoop_count (B : Nat) (hB : 1 ≤ B) (storeOk : Nat → Bool)
    (hok : ∀ i, storeOk i = true) :
    ∀ (events : List α) (t : EHSt α) (bc bs : Nat),
    t.data.length = t.eventNum % B →
    t.stores.length = bc + t.eventNum / B →
    (t.stores.map List.length).sum + t.data.length = bs + t.eventNum →
    (t.data ≠ [] → t.lastEvent.isSome = true) →
    ∃ t', ehLoop B storeOk events t = .ok t' ∧
      t'.eventNum = t.eventNum + events.length ∧
      t'.data.length = t'.eventNum % B ∧
      t'.stores.length = bc + t'.eventNum / B ∧
      (t'.stores.map List.length).sum + t'.data.length = bs + t'.eventNum ∧
      (t'.data ≠ [] → t'.lastEvent.isSome = true) := by
  intro events
  induction events with
  | nil =>
      intro t bc bs h1 h2 h3 h4
      exact ⟨t, rfl, by simp, h1, h2, h3, h4⟩
  | cons ev rest ih =>
      intro t bc bs h1 h2 h3 h4
      simp only [ehLoop]
      by_cases hmod : (t.eventNum + 1) % B = 0
      · rw [if_pos hmod]
        rw [ehStoreBatch_ok storeOk _ ev (hok _)]
        obtain ⟨t', ht', he, hd, hs, hsum, hl⟩ := ih
          { data := [], lastEvent := some ev, eventNum := t.eventNum + 1,
            storeIdx := t.storeIdx + 1,
            processed := t.processed + (t.data ++ [ev]).length,
            checkpoint := some ev, stores := t.stores ++ [t.data ++ [ev]] }
          bc bs
          (by show (0 : Nat) = (t.eventNum + 1) % B
              omega)
          (by show (t.stores ++ [t.data ++ [ev]]).length = bc + (t.eventNum + 1) / B
              rw [Nat.succ_div, if_pos (Nat.dvd_of_mod_eq_zero hmod)]
              simp only [List.length_append, List.length_cons, List.length_nil]
              omega)
          (by show ((t.stores ++ [t.data ++ [ev]]).map List.length).sum + 0 =
                bs + (t.eventNum + 1)
              simp only [List.map_append, List.sum_append, List.map_cons,
                List.map_nil, List.sum_cons, List.sum_nil, List.length_append,
                List.length_cons, List.length_nil]
              omega)
          (by intro hcon; exact absurd rfl hcon)
        refine ⟨t', ht', ?_, hd, hs, hsum, hl⟩
        rw [he]
        simp only [List.length_cons]
        omega
      · rw [if_neg hmod]
        have hstep : (t.eventNum + 1) % B = t.eventNum % B + 1 := by
          rcases mod_succ_cases t.eventNum B hB with h | ⟨heq, hzero⟩
          · exact h
          · exact absurd hzero hmod
        have hdvd : ¬ B ∣ (t.eventNum + 1) := by
          intro hd
          exact hmod (Nat.mod_eq_zero_of_dvd hd)
        obtain ⟨t', ht', he, hd, hs, hsum, hl⟩ := ih
          { t with data := t.data ++ [ev], lastEvent := some ev,
                   eventNum := t.eventNum + 1 }
          bc bs
          (by show (t.data ++ [ev]).length = (t.eventNum + 1) % B
              rw [hstep]
              simp only [List.length_append, List.length_cons, List.length_nil]
              omega)
          (by show t.stores.length = bc + (t.eventNum + 1) / B
              rw [Nat.succ_div, if_neg hdvd]
              omega)
          (by show (t.stores.map List.length).sum + (t.data ++ [ev]).length =
                bs + (t.eventNum + 1)
              simp only [List.length_append, List.length_cons, List.length_nil]
              omega)
          (by intro _; rfl)
        refine ⟨t', ht', ?_, hd, hs, hsum, hl⟩
        rw [he]
        simp only [List.length_cons]
        omega

theorem eh_on_events_of_loop_error (B : Nat) (storeOk : Nat → Bool)
    (events : List α) (s s' : EHSt α) (hne : events ≠ [])
    (h : ehLoop B storeOk events
      { s with data := [], lastEvent := none, eventNum := 0 } = .error s') :
    eh_on_events B storeOk events s = .error s' := by
  unfold eh_on_events
  rw [isEmpty_false_of_ne_nil events hne]
  simp only [Bool.false_eq_true, if_false]
  rw [h]

theorem eh_on_events_count (B : Nat) (hB : 1 ≤ B) (storeOk : Nat → Bool)
    (hok : ∀ i, storeOk i = true) (events : List α) (s : EHSt α) :
    ∃ t', eh_on_events B storeOk events s = .ok t' ∧
      t'.stores.length = s.stores.length + (events.length + B - 1) / B ∧
      (t'.stores.map List.length).sum =
        (s.stores.map List.length).sum + events.length := by
  unfold eh_on_events
  cases events with
  | nil =>
      refine ⟨_, rfl, ?_, ?_⟩
      · show s.stores.length = s.stores.length + (List.length ([] : List α) + B - 1) / B
        rw [List.length_nil, Nat.zero_add, Nat.div_eq_of_lt (show B - 1 < B by omega)]
        omega
      · simp
  | cons e0 erest =>
      rw [show (e0 :: erest).isEmpty = false from rfl]
      simp only [Bool.false_eq_true, if_false]
      obtain ⟨t1, ht1, he, hd, hs, hsum, hl⟩ := ehLoop_count B hB storeOk hok
        (e0 :: erest)
        { s with data := [], lastEvent := none, eventNum := 0 }
        s.stores.length ((s.stores.map List.length).sum)
        (by simp) (by simp) (by simp) (by intro hcon; exact absurd rfl hcon)
      simp only [ht1]
      have heN : t1.eventNum = (e0 :: erest).length := by
        rw [he]; simp
      by_cases hde : t1.data.isEmpty
      · rw [if_pos hde]
        have hdnil : t1.data = [] := by
          cases hdat : t1.data with
          | nil => rfl
          | cons a tl => rw [hdat] at hde; simp at hde
        have hmod0 : t1.eventNum % B = 0 := by
          rw [← hd, hdnil]; rfl
        refine ⟨t1, rfl, ?_, ?_⟩
        · rw [hs, heN, ceil_div_eq _ B hB, if_pos (heN ▸ hmod0)]
          omega
        · have := hsum
          rw [hdnil] at this
          simp only [List.length_nil, Nat.add_zero] at this
          rw [this, heN]
      · rw [if_neg hde]
        have hdne : t1.data ≠ [] := by
          intro hnil
          rw [hnil] at hde
          simp at hde
        obtain ⟨le, hle⟩ := Option.isSome_iff_exists.mp (hl hdne)
        simp only [hle]
        rw [ehStoreBatch_ok storeOk t1 le (hok _)]
        have hmodne : ¬ t1.eventNum % B = 0 := by
          rw [← hd]
          intro hlen0
          exact hdne (List.length_eq_zero.mp hlen0)
        refine ⟨_, rfl, ?_, ?_⟩
        · show (t1.stores ++ [t1.data]).length = s.stores.length +
            ((e0 :: erest).length + B - 1) / B
          rw [List.length_append, ceil_div_eq _ B hB, if_neg (heN ▸ hmodne),
            hs, heN]
          simp only [List.length_cons, List.length_nil]
          omega
        · show ((t1.stores ++ [t1.data]).map List.length).sum =
            (s.stores.map List.length).sum + (e0 :: erest).length
          simp only [List.map_append, List.sum_append, List.map_cons,
            List.map_nil, List.sum_cons, List.sum_nil]
          rw [← heN]
          omega

theorem sb_extracted_any_isNone_false (gm : Bool) (l : List SBMsg)
    (h : ∀ m ∈ l, m.body.isSome = true) :
    (l.map (fun m => form_data_af_service_bus_pull m gm)).any Option.isNone =
      false := by
  rw [Bool.eq_false_iff]
  intro hany
  rw [List.any_eq_true] at hany
  obtain ⟨o, ho, hoNone⟩ := hany
  rw [List.mem_map] at ho
  obtain ⟨m, hm, rfl⟩ := ho
  rw [form_data_sb_isNone] at hoNone
  have hsome := h m hm
  rcases hb : m.body with _ | p
  · rw [hb] at hsome; simp at hsome
  · rw [hb] at hoNone; simp at hoNone

theorem sbStoreBatch_ok (gm : Bool) (storeOk : Nat → Bool)
    (completeOk : SBMsg → Bool) (s : SBSt)
    (hdec : ∀ m ∈ s.data, m.body.isSome = true)
    (hok : storeOk s.storeIdx = true) :
    sbStoreBatch gm storeOk completeOk s =
      .ok { s with
            data := [],
            storeIdx := s.storeIdx + 1,
            stores := s.stores ++ [s.data],
            processed := s.processed +
              (s.data.filter (fun m => completeOk m)).length } := by
  simp only [sbStoreBatch]
  rw [sb_extracted_any_isNone_false gm s.data hdec]
  simp [hok]

theorem sbStoreBatch_decodeError (gm : Bool) (storeOk : Nat → Bool)
    (completeOk : SBMsg → Bool) (s : SBSt)
    (h : (s.data.map (fun m => form_data_af_service_bus_pull m gm)).any
      Option.isNone = true) :
    sbStoreBatch gm storeOk completeOk s = .error (.decodeError, s) := by
  simp only [sbStoreBatch]
  rw [h]
  simp

theorem sbProcessMsgs_append (B : Nat) (gm : Bool) (storeOk : Nat → Bool)
    (completeOk : SBMsg → Bool) (xs ys : List SBMsg) :
    ∀ s, sbProcessMsgs B gm storeOk completeOk (xs ++ ys) s =
      match sbProcessMsgs B gm storeOk completeOk xs s with
      | .ok s1 => sbProcessMsgs B gm storeOk completeOk ys s1
      | .error e => .error e := by
  induction xs with
  | nil => intro s; rfl
  | cons m xs ih =>
      intro s
      simp only [List.cons_append, sbProcessMsgs]
      by_cases hmod : (s.msgNum + 1) % B = 0
      · rw [if_pos hmod, if_pos hmod]
        cases hsb : sbStoreBatch gm storeOk completeOk
          { s with msgNum := s.msgNum + 1, data := s.data ++ [m] } with
        | ok s2 => exact ih s2
        | error e => rfl
      · rw [if_neg hmod, if_neg hmod]
        exact ih _

theorem sbFetchLoop_join (B : Nat) (gm : Bool) (storeOk : Nat → Bool)
    (completeOk : SBMsg → Bool) (fetches : List (List SBMsg)) :
    ∀ s, (∀ f ∈ fetches, f ≠ []) →
    sbFetchLoop B gm storeOk completeOk fetches s =
      sbProcessMsgs B gm storeOk completeOk fetches.flatten s := by
  induction fetches with
  | nil => intro s h; rfl
  | cons f fs ih =>
      intro s h
      have hf : f ≠ [] := h f (List.mem_cons_self f fs)
      simp only [sbFetchLoop, List.flatten_cons]
      rw [isEmpty_false_of_ne_nil f hf]
      simp only [Bool.false_eq_true, if_false]
      rw [sbProcessMsgs_append]
      cases hps : sbProcessMsgs B gm storeOk completeOk f s with
      | ok s1 => exact ih s1 (fun g hg => h g (List.mem_cons_of_mem f hg))
      | error e => rfl

theorem sbProcessMsgs_count (B : Nat) (hB : 1 ≤ B) (gm : Bool)
    (storeOk : Nat → Bool) (hok : ∀ i, storeOk i = true)
    (completeOk : SBMsg → Bool) :
    ∀ (msgs : List SBMsg) (s : SBSt) (bc bs : Nat),
    (∀ m ∈ msgs, m.body.isSome = true) →
    (∀ m ∈ s.data, m.body.isSome = true) →
    s.data.length = s.msgNum % B →
    s.stores.length = bc + s.msgNum / B →
    (s.stores.map List.length).sum + s.data.length = bs + s.msgNum →
    ∃ s', sbProcessMsgs B gm storeOk completeOk msgs s = .ok s' ∧
      s'.msgNum = s.msgNum + msgs.length ∧
      (∀ m ∈ s'.data, m.body.isSome = true) ∧
      s'.data.length = s'.msgNum % B ∧
      s'.stores.length = bc + s'.msgNum / B ∧
      (s'.stores.map List.length).sum + s'.data.length = bs + s'.msgNum := by
  intro msgs
  induction msgs with
  | nil =>
      intro s bc bs hmd hdd h1 h2 h3
      exact ⟨s, rfl, by simp, hdd, h1, h2, h3⟩
  | cons m rest ih =>
      intro s bc bs hmd hdd h1 h2 h3
      have hm : m.body.isSome = true := hmd m (List.mem_cons_self m rest)
      have hrest : ∀ x ∈ rest, x.body.isSome = true :=
        fun x hx => hmd x (List.mem_cons_of_mem m hx)
      have hdd1 : ∀ x ∈ s.data ++ [m], x.body.isSome = true := by
        intro x hx
        rw [List.mem_append] at hx
        rcases hx with hx | hx
        · exact hdd x hx
        · rw [List.mem_singleton] at hx
          subst hx
          exact hm
      simp only [sbProcessMsgs]
      by_cases hmod : (s.msgNum + 1) % B = 0
      · rw [if_pos hmod]
        rw [sbStoreBatch_ok gm storeOk completeOk
          { s with msgNum := s.msgNum + 1, data := s.data ++ [m] } hdd1 (hok _)]
        obtain ⟨s', hs', hn, hdat, hd1, hd2, hd3⟩ := ih
          { data := [], msgNum := s.msgNum + 1, storeIdx := s.storeIdx + 1,
            processed := s.processed +
              ((s.data ++ [m]).filter (fun x => completeOk x)).length,
            stores := s.stores ++ [s.data ++ [m]] }
          bc bs hrest
          (by intro x hx; simp at hx)
          (by show (0 : Nat) = (s.msgNum + 1) % B
              omega)
          (by show (s.stores ++ [s.data ++ [m]]).length = bc + (s.msgNum + 1) / B
              rw [Nat.succ_div, if_pos (Nat.dvd_of_mod_eq_zero hmod)]
              simp only [List.length_append, List.length_cons, List.length_nil]
              omega)
          (by show ((s.stores ++ [s.data ++ [m]]).map List.length).sum + 0 =
                bs + (s.msgNum + 1)
              simp only [List.map_append, List.sum_append, List.map_cons,
                List.map_nil, List.sum_cons, List.sum_nil, List.length_append,
                List.length_cons, List.length_nil]
              omega)
        refine ⟨s', hs', ?_, hdat, hd1, hd2, hd3⟩
        rw [hn]
        simp only [List.length_cons]
        omega
      · rw [if_neg hmod]
        have hstep : (s.msgNum + 1) % B = s.msgNum % B + 1 := by
          rcases mod_succ_cases s.msgNum B hB with h | ⟨heq, hzero⟩
          · exact h
          · exact absurd hzero hmod
        have hdvd : ¬ B ∣ (s.msgNum + 1) := by
          intro hd
          exact hmod (Nat.mod_eq_zero_of_dvd hd)
        obtain ⟨s', hs', hn, hdat, hd1, hd2, hd3⟩ := ih
          { s with msgNum := s.msgNum + 1, data := s.data ++ [m] }
          bc bs hrest hdd1
          (by show (s.data ++ [m]).length = (s.msgNum + 1) % B
              rw [hstep]
              simp only [List.length_append, List.length_cons, List.length_nil]
              omega)
          (by show s.stores.length = bc + (s.msgNum + 1) / B
              rw [Nat.succ_div, if_neg hdvd]
              omega)
          (by show (s.stores.map List.length).sum + (s.data ++ [m]).length =
                bs + (s.msgNum + 1)
              simp only [List.length_append, List.length_cons, List.length_nil]
              omega)
        refine ⟨s', hs', ?_, hdat, hd1, hd2, hd3⟩
        rw [hn]
        simp only [List.length_cons]
        omega

theorem sb_pull_loop_flush_count (B : Nat) (hB : 1 ≤ B) (gm : Bool)
    (completeOk : SBMsg → Bool) (fetches : List (List SBMsg))
    (hne : ∀ f ∈ fetches, f ≠ [])
    (hdec : ∀ f ∈ fetches, ∀ m ∈ f, m.body.isSome = true) :
    (sb_pull_loop B gm (fun _ => true) completeOk fetches).exitKind =
      .normal ∧
    ((sb_pull_loop B gm (fun _ => true) completeOk fetches).stores.map
      List.length).sum = (fetches.map List.length).sum ∧
    (sb_pull_loop B gm (fun _ => true) completeOk fetches).stores.length =
      ((fetches.map List.length).sum + B - 1) / B := by
  have hjoindec : ∀ m ∈ fetches.flatten, m.body.isSome = true := by
    intro m hm
    rw [List.mem_flatten] at hm
    obtain ⟨f, hf, hmf⟩ := hm
    exact hdec f hf m hmf
  have hM : fetches.flatten.length = (fetches.map List.length).sum :=
    List.length_flatten fetches
  obtain ⟨s', hs', hn, hdat, hd1, hd2, hd3⟩ := sbProcessMsgs_count B hB gm
    (fun _ => true) (fun _ => rfl) completeOk fetches.flatten sbInit 0 0
    hjoindec (by intro x hx; simp [sbInit] at hx) (by simp [sbInit])
    (by simp [sbInit]) (by simp [sbInit])
  have hnum : s'.msgNum = fetches.flatten.length := by
    rw [hn]; simp [sbInit]
  unfold sb_pull_loop
  rw [sbFetchLoop_join B gm (fun _ => true) completeOk fetches sbInit hne]
  simp only [hs']
  by_cases hde : s'.data.isEmpty
  · rw [if_pos hde]
    have hdnil : s'.data = [] := by
      cases hdat2 : s'.data with
      | nil => rfl
      | cons a tl => rw [hdat2] at hde; simp at hde
    have hmod0 : s'.msgNum % B = 0 := by
      rw [← hd1, hdnil]; rfl
    refine ⟨rfl, ?_, ?_⟩
    · show (s'.stores.map List.length).sum = (fetches.map List.length).sum
      have := hd3
      rw [hdnil] at this
      simp only [List.length_nil, Nat.add_zero, Nat.zero_add] at this
      rw [this, hnum, hM]
    · show s'.stores.length = ((fetches.map List.length).sum + B - 1) / B
      rw [ceil_div_eq _ B hB, if_pos (by rw [← hM, ← hnum]; exact hmod0)]
      rw [hd2, ← hM, ← hnum]
      omega
  · rw [if_neg hde]
    have hdne : s'.data ≠ [] := by
      intro hnil
      rw [hnil] at hde
      simp at hde
    rw [sbStoreBatch_ok gm (fun _ => true) completeOk s' hdat rfl]
    have hmodne : ¬ s'.msgNum % B = 0 := by
      rw [← hd1]
      intro hlen0
      exact hdne (List.length_eq_zero.mp hlen0)
    refine ⟨rfl, ?_, ?_⟩
    · show ((s'.stores ++ [s'.data]).map List.length).sum =
        (fetches.map List.length).sum
      simp only [List.map_append, List.sum_append, List.map_cons, List.map_nil,
        List.sum_cons, List.sum_nil]
      rw [← hM, ← hnum]
      omega
    · show (s'.stores ++ [s'.data]).length =
        ((fetches.map List.length).sum + B - 1) / B
      rw [List.length_append, ceil_div_eq _ B hB,
        if_neg (by rw [← hM, ← hnum]; exact hmodne)]
      simp only [List.length_cons, List.length_nil]
      rw [hd2, ← hM, ← hnum]
      omega

theorem sbProcessMsgs_bad_data (B : Nat) (gm : Bool) (storeOk : Nat → Bool)
    (completeOk : SBMsg → Bool) :
    ∀ (msgs : List SBMsg) (s : SBSt),
    (s.data.map (fun m => form_data_af_service_bus_pull m gm)).any
      Option.isNone = true →
    (∃ s', sbProcessMsgs B gm storeOk completeOk msgs s = .ok s' ∧
      (s'.data.map (fun m => form_data_af_service_bus_pull m gm)).any
        Option.isNone = true ∧
      s'.stores = s.stores ∧ s'.processed = s.processed) ∨
    (∃ s', sbProcessMsgs B gm storeOk completeOk msgs s =
        .error (.decodeError, s') ∧
      s'.stores = s.stores ∧ s'.processed = s.processed) := by
  intro msgs
  induction msgs with
  | nil => intro s h; exact Or.inl ⟨s, rfl, h, rfl, rfl⟩
  | cons m rest ih =>
      intro s h
      have hbad1 : ((s.data ++ [m]).map
          (fun x => form_data_af_service_bus_pull x gm)).any
          Option.isNone = true := by
        simp only [List.map_append, List.any_append, h, Bool.true_or]
      simp only [sbProcessMsgs]
      by_cases hmod : (s.msgNum + 1) % B = 0
      · rw [if_pos hmod]
        rw [sbStoreBatch_decodeError gm storeOk completeOk _ hbad1]
        exact Or.inr ⟨_, rfl, rfl, rfl⟩
      · rw [if_neg hmod]
        rcases ih { s with msgNum := s.msgNum + 1, data := s.data ++ [m] }
            hbad1 with ⟨s', h1, h2, h3, h4⟩ | ⟨s', h1, h3, h4⟩
        · exact Or.inl ⟨s', h1, h2, h3, h4⟩
        · exact Or.inr ⟨s', h1, h3, h4⟩

theorem sbFetchLoop_bad_data (B : Nat) (gm : Bool) (storeOk : Nat → Bool)
    (completeOk : SBMsg → Bool) :
    ∀ (fetches : List (List SBMsg)) (s : SBSt),
    (s.data.map (fun m => form_data_af_service_bus_pull m gm)).any
      Option.isNone = true →
    (∃ s', sbFetchLoop B gm storeOk completeOk fetches s = .ok s' ∧
      (s'.data.map (fun m => form_data_af_service_bus_pull m gm)).any
        Option.isNone = true ∧
      s'.stores = s.stores ∧ s'.processed = s.processed) ∨
    (∃ s', sbFetchLoop B gm storeOk completeOk fetches s =
        .error (.decodeError, s') ∧
      s'.stores = s.stores ∧ s'.processed = s.processed) := by
  intro fetches
  induction fetches with
  | nil => intro s h; exact Or.inl ⟨s, rfl, h, rfl, rfl⟩
  | cons f fs ih =>
      intro s h
      simp only [sbFetchLoop]
      by_cases hfe : f.isEmpty
      · rw [if_pos hfe]
        exact Or.inl ⟨s, rfl, h, rfl, rfl⟩
      · rw [if_neg hfe]
        rcases sbProcessMsgs_bad_data B gm storeOk completeOk f s h with
          ⟨s1, h1, h2, h3, h4⟩ | ⟨s1, h1, h3, h4⟩
        · simp only [h1]
          rcases ih s1 h2 with ⟨s', g1, g2, g3, g4⟩ | ⟨s', g1, g3, g4⟩
          · exact Or.inl ⟨s', g1, g2, g3.trans h3, g4.trans h4⟩
          · exact Or.inr ⟨s', g1, g3.trans h3, g4.trans h4⟩
        · simp only [h1]
          exact Or.inr ⟨s1, rfl, h3, h4⟩

theorem bad_mem_any_isNone (gm : Bool) (bad : SBMsg) (hbad : bad.body = none)
    (l : List SBMsg) (hl : bad ∈ l) :
    (l.map (fun m => form_data_af_service_bus_pull m gm)).any
      Option.isNone = true := by
  rw [List.any_eq_true]
  refine ⟨form_data_af_service_bus_pull bad gm, List.mem_map_of_mem _ hl, ?_⟩
  rw [form_data_sb_isNone, hbad]
  rfl

/-! # Claim theorems -/

/-- Claim C2: for every batch and every store client whose write operation
always fails, `save_to_storage` attempts the write exactly 3 times
(`STORE_RETRY_POLICY_MAX`) with a 0.5-time-unit backoff sleep between
attempts, then returns `(path, success=false)` without raising — provided
the configuration admits a destination at all (non-append mode, or append
mode with a truthy append-blob name). -/
theorem writer_always_failing_retries (attemptOk : Nat → Bool)
    (h : ∀ j, attemptOk j = false) (data : List String) (sp : String)
    (append : Bool) (fan : Option String) (uuid : String) (now : DateTime)
    (hvalid : append = true → pyTruthyOptStr fan = true) :
    (∃ fn, save_to_storage attemptOk data sp append fan uuid now =
      { result := .done fn false, attempts := 3,
        sleeps := [STORE_RETRY_BACKOFF_TIME, STORE_RETRY_BACKOFF_TIME] }) ∧
    STORE_RETRY_POLICY_MAX = 3 ∧ STORE_RETRY_BACKOFF_TIME = 1 / 2 := by
  refine ⟨?_, rfl, rfl⟩
  cases append with
  | false =>
      refine ⟨generate_file_name sp none uuid now, ?_⟩
      simp [save_to_storage, pyTruthyOptStr, generate_file_name_isEmpty_false,
        STORE_RETRY_POLICY_MAX, storeRetryLoop_three_fail attemptOk h]
  | true =>
      refine ⟨fan.getD "", ?_⟩
      have hfan := hvalid rfl
      simp [save_to_storage, hfan, show pyTruthyOptStr none = false from rfl,
        STORE_RETRY_POLICY_MAX, storeRetryLoop_three_fail attemptOk h]

/-- Witness for C2: the always-failing client, non-append mode. -/
theorem writer_always_failing_retries_witness :
    (∃ fn, save_to_storage (fun _ => false) ["payload"] "hub" false none "u1"
        ⟨2020, 5, 6, 7, 8⟩ =
      { result := .done fn false, attempts := 3,
        sleeps := [STORE_RETRY_BACKOFF_TIME, STORE_RETRY_BACKOFF_TIME] }) ∧
    STORE_RETRY_POLICY_MAX = 3 ∧ STORE_RETRY_BACKOFF_TIME = 1 / 2 :=
  writer_always_failing_retries (fun _ => false) (fun _ => rfl) ["payload"]
    "hub" false none "u1" ⟨2020, 5, 6, 7, 8⟩ (by simp)

/-- Counterexample for C4: a task cancelled while holding the non-empty
batch `[wmA]` and one fetched-but-unincorporated message `wmC`, whose
remainder flush fails (the writer, having exhausted its retries, returns
`success = false`, so `store_batch` raises `PersistorStoreException` inside
the `except asyncio.CancelledError` handler). The exception propagates out
of the handler before the abandon loop runs: `abandoned = []` although the
fetched list is non-empty — the fetched message is silently dropped,
contrary to the claim. -/
theorem cancelled_task_drops_fetched_counterexample :
    sb_cancel_cleanup false (fun _ => false) (fun _ => true)
      { data := [wmA], msgNum := 1, storeIdx := 0, processed := 0,
        stores := [] } [wmC] =
      { stores := [], processed := 0, abandoned := [],
        raisedError := some .storeException } ∧
    [wmC] ≠ ([] : List SBMsg) := by
  constructor
  · rfl
  · decide

/-- Claim C4 as amended (cancellation handler of `pull_loop`,
services_servicebus_pull.py lines 170-175): a task cancelled while holding a
non-empty in-memory batch `s.data` of decodable unflushed messages attempts
to flush exactly those messages as one batch. If the writer reports success,
every message already fetched but not yet incorporated (`fetched`) is
abandoned. If the writer reports failure, `store_batch` raises out of the
handler and the abandon loop is skipped: nothing further is stored, nothing
is abandoned, and the fetched messages are dropped. -/
theorem cancelled_task_cleanup_amended (gm : Bool) (storeOk : Nat → Bool)
    (completeOk : SBMsg → Bool) (s : SBSt) (fetched : List SBMsg)
    (hne : s.data ≠ [])
    (hdec : ∀ m ∈ s.data, m.body.isSome = true) :
    (storeOk s.storeIdx = true →
      sb_cancel_cleanup gm storeOk completeOk s fetched =
        { stores := s.stores ++ [s.data],
          processed := s.processed +
            (s.data.filter (fun m => completeOk m)).length,
          abandoned := fetched, raisedError := none }) ∧
    (storeOk s.storeIdx = false →
      sb_cancel_cleanup gm storeOk completeOk s fetched =
        { stores := s.stores, processed := s.processed, abandoned := [],
          raisedError := some .storeException }) := by
  have hnone : (s.data.map (fun m => form_data_af_service_bus_pull m gm)).any
      Option.isNone = false := sb_extracted_any_isNone_false gm s.data hdec
  have hempty : s.data.isEmpty = false := by
    cases hd : s.data with
    | nil => exact absurd hd hne
    | cons a t => rfl
  constructor
  · intro hstore
    simp [sb_cancel_cleanup, sbStoreBatch, hempty, hnone, hstore]
  · intro hstore
    simp [sb_cancel_cleanup, sbStoreBatch, hempty, hnone, hstore]

/-- Witness for C4 (amended): one unflushed message and one fetched
message; a succeeding writer flushes and abandons, a failing writer raises
the store exception and abandons nothing. -/
theorem cancelled_task_cleanup_amended_witness :
    (sb_cancel_cleanup false (fun _ => true) (fun _ => true)
      { data := [wmA], msgNum := 1, storeIdx := 0, processed := 0,
        stores := [] } [wmC] =
      { stores := [[wmA]], processed := 1, abandoned := [wmC],
        raisedError := none }) ∧
    (sb_cancel_cleanup false (fun _ => false) (fun _ => true)
      { data := [wmA], msgNum := 1, storeIdx := 0, processed := 0,
        stores := [] } [wmC] =
      { stores := [], processed := 0, abandoned := [],
        raisedError := some .storeException }) := by
  constructor
  · have h := (cancelled_task_cleanup_amended false (fun _ => true)
      (fun _ => true)
      { data := [wmA], msgNum := 1, storeIdx := 0, processed := 0,
        stores := [] } [wmC] (by decide) (by decide)).1 rfl
    simpa using h
  · have h := (cancelled_task_cleanup_amended false (fun _ => false)
      (fun _ => true)
      { data := [wmA], msgNum := 1, storeIdx := 0, processed := 0,
        stores := [] } [wmC] (by decide) (by decide)).2 rfl
    simpa using h

/-- Counterexample for C5: with a receive-duration budget of 30, the
orchestration cancels the still-running pull task but never awaits it —
`awaitTask` does not occur in the action trace, so the cancellation-triggered
cleanup is not awaited before returning, contrary to the claim. -/
theorem cancel_without_await_counterexample :
    PullAction.cancelTask ∈ time_constrained_pull (some 30) ∧
    PullAction.awaitTask ∉ time_constrained_pull (some 30) := by
  decide

/-- Claim C5 as amended: with a truthy receive-duration budget `d`, the
orchestration enters the client context, starts the pull task, sleeps for
exactly `d`, cancels the still-running task and closes the client before
returning — it does not await the cancelled task's cleanup. -/
theorem budget_pull_cancels_without_await (d : ℚ) (hd : d ≠ 0) :
    time_constrained_pull (some d) =
      [PullAction.enterClientContext, PullAction.startReceiveTask,
       PullAction.sleepFor d, PullAction.cancelTask, PullAction.closeClient] ∧
    PullAction.awaitTask ∉ time_constrained_pull (some d) := by
  constructor
  · simp [time_constrained_pull, pyTruthyDuration, hd]
  · simp [time_constrained_pull, pyTruthyDuration, hd]

/-- Witness for C5 (amended) at budget 30. -/
theorem budget_pull_cancels_without_await_witness :
    time_constrained_pull (some 30) =
      [PullAction.enterClientContext, PullAction.startReceiveTask,
       PullAction.sleepFor 30, PullAction.cancelTask, PullAction.closeClient] ∧
    PullAction.awaitTask ∉ time_constrained_pull (some 30) :=
  budget_pull_cancels_without_await 30 (by norm_num)

/-- Counterexample for C6: with `timeBased` true, a last rotation recorded at
23:59 and the clock now at 0:00 (the next day), the current minute differs
from the recorded minute (0 vs 59) so the claimed condition holds, yet the
code's comparison (`now.hour > prev.hour or now.minute > prev.minute`) is
false and the locate/create step does not execute. -/
theorem rotation_differs_counterexample :
    (generate_append_blob true (some ⟨2020, 1, 1, 23, 59⟩) none "store" "u"
        ⟨2020, 1, 2, 0, 0⟩).checkedStorage = false ∧
    rotation_claimed_condition true (some ⟨2020, 1, 1, 23, 59⟩)
        ⟨2020, 1, 2, 0, 0⟩ = true := by
  constructor
  · rw [generate_append_blob_checkedStorage]; decide
  · decide

/-- Claim C6 as amended: the locate/create-if-absent step of
`generate_append_blob` executes exactly when `timeBased` is false, or no
rotation has been recorded yet, or the current hour is strictly greater than
the recorded hour, or the current minute is strictly greater than the
recorded minute. -/
theorem append_rotation_check_condition (tb : Bool) (mnow : Option DateTime)
    (mfile : Option String) (sp uuid : String) (now : DateTime) :
    (generate_append_blob tb mnow mfile sp uuid now).checkedStorage = true ↔
      (tb = false ∨ mnow = none ∨
        ∃ prev, mnow = some prev ∧
          (prev.hour < now.hour ∨ prev.minute < now.minute)) := by
  rw [generate_append_blob_checkedStorage]
  cases tb <;> rcases mnow with _ | prev <;> simp [rotation_should_check]

/-- Claim C8: `save_to_storage` in append mode with no append-target path
raises the configuration error before performing any write attempt (zero
attempts, zero sleeps); in non-append mode it generates a fresh
uuid-derived destination path for the call, and distinct uuids yield
distinct paths. -/
theorem append_target_required_and_fresh_names (attemptOk : Nat → Bool)
    (data : List String) (sp uuid uuid2 : String) (fan : Option String)
    (now : DateTime) (hne : uuid ≠ uuid2) :
    save_to_storage attemptOk data sp true none uuid now =
      { result := .configError, attempts := 0, sleeps := [] } ∧
    (∃ ok, (save_to_storage attemptOk data sp false fan uuid now).result =
      .done (generate_file_name sp none uuid now) ok) ∧
    generate_file_name sp none uuid now ≠ generate_file_name sp none uuid2 now := by
  refine ⟨?_, ?_, ?_⟩
  · simp [save_to_storage, pyTruthyOptStr]
  · refine ⟨(storeRetryLoop attemptOk 0 STORE_RETRY_POLICY_MAX).2.2, ?_⟩
    simp [save_to_storage, pyTruthyOptStr, generate_file_name_isEmpty_false]
  · intro heq
    apply hne
    have hdata := congrArg String.data heq
    simp only [generate_file_name, pyTruthyOptStr, Option.getD,
      Bool.false_eq_true, if_false, String.data_append] at hdata
    exact String.ext (List.append_cancel_left (List.append_cancel_right hdata))

/-- Witness for C8 at concrete inputs. -/
theorem append_target_required_and_fresh_names_witness :
    save_to_storage (fun _ => true) ["d"] "sp" true none "ua" ⟨2021, 2, 3, 4, 5⟩ =
      { result := .configError, attempts := 0, sleeps := [] } ∧
    (∃ ok, (save_to_storage (fun _ => true) ["d"] "sp" false none "ua"
        ⟨2021, 2, 3, 4, 5⟩).result =
      .done (generate_file_name "sp" none "ua" ⟨2021, 2, 3, 4, 5⟩) ok) ∧
    generate_file_name "sp" none "ua" ⟨2021, 2, 3, 4, 5⟩ ≠
      generate_file_name "sp" none "ub" ⟨2021, 2, 3, 4, 5⟩ :=
  append_target_required_and_fresh_names (fun _ => true) ["d"] "sp" "ua" "ub"
    none ⟨2021, 2, 3, 4, 5⟩ (by decide)

/-- Claim C9: `ServiceManagerBase.__init__` forces the append flag whenever
the timed-append flag is set, even if the `APPEND` key is absent or false, so
`timed_append → append` holds for the constructed manager. -/
theorem timed_append_forces_append (config : ManagerConfig)
    (h : (serviceManagerBaseInit config).timed_append = true) :
    (serviceManagerBaseInit config).append = true := by
  simp only [serviceManagerBaseInit] at h ⊢
  simp [h]

/-- Witness for C9: `TIMED_APPEND` true while `APPEND` is absent. -/
theorem timed_append_forces_append_witness :
    (serviceManagerBaseInit ⟨none, none, some true⟩).timed_append = true ∧
    (serviceManagerBaseInit ⟨none, none, some true⟩).append = true :=
  ⟨rfl, timed_append_forces_append ⟨none, none, some true⟩ rfl⟩

/-- Claim C10: the record built by `form_store` carries a `METADATA` field
exactly when the metadata is present and non-empty; in particular an absent
or empty mapping produces no `METADATA` field even when metadata extraction
was requested (`get_metadata = true` in the Event Hub pull formatter). -/
theorem form_store_metadata_iff (payload : String)
    (md : Option (List (String × String))) (body : String)
    (props : Option (List (String × String))) :
    ((form_store payload md).metadata.isSome = true ↔
      ∃ l, md = some l ∧ l ≠ []) ∧
    (form_data_af_event_hub_pull body (some []) true).metadata = none ∧
    (form_data_af_event_hub_pull body none true).metadata = none := by
  refine ⟨?_, rfl, rfl⟩
  rcases md with _ | l
  · simp [form_store, pyTruthyDict]
  · rcases l with _ | ⟨p, rest⟩ <;> simp [form_store, pyTruthyDict]

/-- Claim C1: the Event Hub pull task advances the partition checkpoint past
a batch's records only after that batch's durable write succeeded. If the
writer succeeds on the first `f` batches and fails on batch `K = f + 1`
(the writer, having exhausted its retries, returns `success = false`), the
callback raises the store failure (`.error`) without updating the
checkpoint: it is left at the last event of batch `K - 1` (`none` when
`K = 1`), and exactly the `f * B` records of the successfully stored batches
were counted as processed. -/
theorem eventhub_checkpoint_only_after_durable_store (B f : Nat)
    (events : List Nat) (hB : 1 ≤ B) (hlen : (f + 1) * B ≤ events.length) :
    ∃ s', eh_on_events B (fun i => decide (i < f)) events ehInit = .error s' ∧
      s'.checkpoint = (events.take (f * B)).getLast? ∧
      s'.processed = f * B := by
  have hne : events ≠ [] := by
    intro hnil
    rw [hnil] at hlen
    simp at hlen
    omega
  obtain ⟨s', hs', hcp, hpr⟩ := ehLoop_fail_at B hB f f events
    { ehInit with data := [], lastEvent := none, eventNum := 0 }
    rfl (by simp [ehInit]) (by simp [ehInit]) hlen
  refine ⟨s', eh_on_events_of_loop_error B _ events ehInit s' hne hs', ?_, ?_⟩
  · rw [hcp]
    simp [ehInit, lastUpd_none]
  · rw [hpr]
    simp [ehInit]

/-- Witness for C1: batch size 2, first writer call succeeds, second fails;
four events. The checkpoint ends at the second event (end of batch 1) and
two records are processed. -/
theorem eventhub_checkpoint_only_after_durable_store_witness :
    ∃ s', eh_on_events 2 (fun i => decide (i < 1)) [10, 11, 12, 13] ehInit =
        .error s' ∧
      s'.checkpoint = ([10, 11, 12, 13].take (1 * 2)).getLast? ∧
      s'.processed = 1 * 2 :=
  eventhub_checkpoint_only_after_durable_store 2 1 [10, 11, 12, 13]
    (by decide) (by decide)

/-- Counterexample for C3: an Event Hub pull-task run with batch size 2 whose
two received messages arrive in two `on_events` callback deliveries performs
2 flush operations, not `ceil(2/2) = 1`: `event_num` and the in-memory batch
are local to one callback invocation, so each delivery flushes its own
non-empty leftovers. -/
theorem eventhub_per_delivery_flush_counterexample :
    (∃ t', eh_task_run 2 (fun _ => true) [[(10 : Nat)], [11]] ehInit =
        .ok t' ∧ t'.stores.length = 2) ∧
    (2 + 2 - 1) / 2 = 1 :=
  ⟨⟨{ data := [], lastEvent := some 11, eventNum := 1, storeIdx := 2,
      processed := 2, checkpoint := some 11, stores := [[10], [11]] },
    rfl, rfl⟩, rfl⟩

/-- Claim C3 as amended: with every store succeeding and batch size `B ≥ 1`,
(a) a Service Bus pull-task run that receives its `M` messages in any
sequence of non-empty fetches performs exactly `ceil(M/B) = (M+B-1)/B` flush
operations over the whole run, and the flushed record counts sum to `M`;
(b) an Event Hub pull task performs exactly `ceil(Mi/B)` flush operations
per `on_events` callback invocation delivering `Mi` events (the seen-count
and leftover flush are per-invocation, so a run receiving its messages
across several deliveries flushes each delivery's remainder separately),
with the flushed record counts of the invocation summing to `Mi`. -/
theorem batch_flush_count_amended :
    (∀ (B : Nat) (gm : Bool) (completeOk : SBMsg → Bool)
      (fetches : List (List SBMsg)), 1 ≤ B →
      (∀ f ∈ fetches, f ≠ []) →
      (∀ f ∈ fetches, ∀ m ∈ f, m.body.isSome = true) →
      (sb_pull_loop B gm (fun _ => true) completeOk fetches).exitKind =
        .normal ∧
      ((sb_pull_loop B gm (fun _ => true) completeOk fetches).stores.map
        List.length).sum = (fetches.map List.length).sum ∧
      (sb_pull_loop B gm (fun _ => true) completeOk fetches).stores.length =
        ((fetches.map List.length).sum + B - 1) / B) ∧
    (∀ (B : Nat) (events : List Nat) (s : EHSt Nat), 1 ≤ B →
      ∃ t', eh_on_events B (fun _ => true) events s = .ok t' ∧
        t'.stores.length = s.stores.length + (events.length + B - 1) / B ∧
        (t'.stores.map List.length).sum =
          (s.stores.map List.length).sum + events.length) := by
  constructor
  · intro B gm completeOk fetches hB hne hdec
    exact sb_pull_loop_flush_count B hB gm completeOk fetches hne hdec
  · intro B events s hB
    exact eh_on_events_count B hB (fun _ => true) (fun _ => rfl) events s

/-- Witness for C3 (amended): three messages in fetches of 2 and 1 with
batch size 2 give 2 flushes summing to 3 on the Service Bus side; a single
delivery of 3 events gives 2 flushes summing to 3 on the Event Hub side. -/
theorem batch_flush_count_amended_witness :
    ((sb_pull_loop 2 false (fun _ => true) (fun _ => true)
        [[wmA, wmB], [wmC]]).exitKind = .normal ∧
     ((sb_pull_loop 2 false (fun _ => true) (fun _ => true)
        [[wmA, wmB], [wmC]]).stores.map List.length).sum =
      ([[wmA, wmB], [wmC]].map List.length).sum ∧
     (sb_pull_loop 2 false (fun _ => true) (fun _ => true)
        [[wmA, wmB], [wmC]]).stores.length =
      (([[wmA, wmB], [wmC]].map List.length).sum + 2 - 1) / 2) ∧
    (∃ t', eh_on_events 2 (fun _ => true) [7, 8, 9] ehInit = .ok t' ∧
      t'.stores.length =
        (ehInit : EHSt Nat).stores.length +
          (([7, 8, 9] : List Nat).length + 2 - 1) / 2 ∧
      (t'.stores.map List.length).sum =
        ((ehInit : EHSt Nat).stores.map List.length).sum +
          ([7, 8, 9] : List Nat).length) :=
  ⟨batch_flush_count_amended.1 2 false (fun _ => true) [[wmA, wmB], [wmC]]
      (by decide) (by decide) (by decide),
   batch_flush_count_amended.2 2 [7, 8, 9] ehInit (by decide)⟩

/-- Counterexample for C7: with batch size 1, a fetch holding an undecodable
message followed by a decodable one ends the whole task through the generic
receiver-error handler: nothing is stored and no message is processed — the
undecodable message is not individually skipped and the task does not
continue with the subsequent message (that would have produced
`stores = [[wmA]]` and `processed = 1`). -/
theorem decode_error_skip_counterexample :
    sb_pull_loop 1 false (fun _ => true) (fun _ => true) [[wmBad, wmA]] =
      { stores := [], processed := 0,
        exitKind := .caughtError .decodeError } ∧
    (sb_pull_loop 1 false (fun _ => true) (fun _ => true)
      [[wmBad, wmA]]).stores ≠ [[wmA]] := by
  constructor
  · rfl
  · decide

/-- Claim C7 as amended: a message whose payload cannot be decoded as text
makes the payload extraction raise when the batch containing it is first
flushed; the Service Bus pull task catches the exception in its generic
receiver-error handler, logs it and terminates. The message is not
individually skipped and no subsequent message of the run is processed: if
the first received message is undecodable, the run ends with the decode
error caught, no batch stored and zero messages processed, whatever else the
source delivers. -/
theorem undecodable_payload_terminates_task (B : Nat) (hB : 1 ≤ B) (gm : Bool)
    (storeOk : Nat → Bool) (completeOk : SBMsg → Bool) (bad : SBMsg)
    (hbad : bad.body = none) (rest : List SBMsg)
    (fetches : List (List SBMsg)) :
    sb_pull_loop B gm storeOk completeOk ((bad :: rest) :: fetches) =
      { stores := [], processed := 0,
        exitKind := .caughtError .decodeError } := by
  unfold sb_pull_loop
  rw [show ((bad :: rest) :: fetches) = (([bad] ++ rest) :: fetches) from rfl]
  simp only [sbFetchLoop]
  rw [show ([bad] ++ rest).isEmpty = false from rfl]
  simp only [Bool.false_eq_true, if_false]
  rw [sbProcessMsgs_append]
  simp only [sbProcessMsgs, sbInit, List.nil_append, Nat.zero_add]
  by_cases hmod : (1 : Nat) % B = 0
  · rw [if_pos hmod]
    simp only [sbStoreBatch_decodeError gm storeOk completeOk
      { data := [bad], msgNum := 1, storeIdx := 0, processed := 0,
        stores := [] }
      (bad_mem_any_isNone gm bad hbad [bad] (List.mem_singleton_self bad))]
  · rw [if_neg hmod]
    rcases sbProcessMsgs_bad_data B gm storeOk completeOk rest
        { data := [bad], msgNum := 1, storeIdx := 0, processed := 0,
          stores := [] }
        (bad_mem_any_isNone gm bad hbad [bad] (List.mem_singleton_self bad))
      with ⟨s2, h1, h2, h3, h4⟩ | ⟨s2, h1, h3, h4⟩
    · simp only [h1]
      rcases sbFetchLoop_bad_data B gm storeOk completeOk fetches s2 h2 with
        ⟨s3, g1, g2, g3, g4⟩ | ⟨s3, g1, g3, g4⟩
      · simp only [g1]
        have hdne : s3.data ≠ [] := by
          intro hnil
          rw [hnil] at g2
          simp at g2
        rw [isEmpty_false_of_ne_nil s3.data hdne]
        simp only [Bool.false_eq_true, if_false]
        simp only [sbStoreBatch_decodeError gm storeOk completeOk s3 g2]
        have hst : s3.stores = [] := by rw [g3, h3]
        have hpr : s3.processed = 0 := by rw [g4, h4]
        rw [hst, hpr]
      · simp only [g1]
        have hst : s3.stores = [] := by rw [g3, h3]
        have hpr : s3.processed = 0 := by rw [g4, h4]
        rw [hst, hpr]
    · simp only [h1]
      have hst : s2.stores = [] := by rw [h3]
      have hpr : s2.processed = 0 := by rw [h4]
      rw [hst, hpr]

/-- Witness for C7 (amended): batch size 2, an undecodable first message
followed by a decodable one; the task terminates with the decode error
caught, nothing stored, nothing processed. -/
theorem undecodable_payload_terminates_task_witness :
    sb_pull_loop 2 false (fun _ => true) (fun _ => true) [[wmBad, wmA]] =
      { stores := [], processed := 0,
        exitKind := .caughtError .decodeError } :=
  undecodable_payload_terminates_task 2 (by decide) false (fun _ => true)
    (fun _ => true) wmBad rfl [wmA] []

end Persistor
